import Mathlib

set_option maxHeartbeats 1000000
set_option maxRecDepth 4000

/-!
Shallow embedding of `modules/perception/camera/app/cipv_camera.cc` (Apollo
perception module, class `Cipv`).

Modelling conventions:
* C++ `float`/`double` arithmetic is modelled by exact rationals (`ℚ`).
* Eigen's 3x3 matrices are a nine-field structure `Mat3`; `Eigen::Matrix3d::inverse`
  is the cofactor/determinant formula `inverse3` (Eigen computes exactly this for
  fixed-size 3x3 matrices; for a singular matrix the C++ result holds non-finite
  doubles, here division by zero yields `0`).
* `Cipv::DetermineCipv`'s function-local `static int32_t old_cipv_index` and the
  member maps `object_trackjectories_` / `object_id_skip_count_` are explicit
  fields of `CipvState`; `std::map` is an association list keyed by `ℤ`.
* The distance returned by `common::math::LineSegment2d::DistanceTo` is
  irrational in general; every use in this file feeds a `<` comparison, so the
  squared distance (order-isomorphic on nonnegative values) is computed instead.
* `cos(theta)`/`sin(theta)` of an object's heading (`alpha + atan2(x, z)`, folded
  by 90 degrees) are transcendental; an `Object` carries the two values
  `cos_theta`/`sin_theta` as attributes, exactly as the corner computation of
  `FindClosestEdgeOfObjectGround` consumes them.
* Logging (`AINFO`/`ADEBUG`, `debug_level_`) has no observable effect and is dropped.
-/

namespace CipvCamera

/-- Modelled from the spec: maximum object-to-lane distance threshold
`MAX_DIST_OBJECT_TO_LANE_METER`, a configuration constant declared in
`cipv_camera.h` (the header is not under `src/`).  The claims use it
symbolically, so only positivity matters. -/
def MAX_DIST_OBJECT_TO_LANE_METER : ℚ := 70

/-- Modelled from the spec: maximum plausible vehicle width
`MAX_VEHICLE_WIDTH_METER`, declared in `cipv_camera.h` (not under `src/`). -/
def MAX_VEHICLE_WIDTH_METER : ℚ := 5

/-- Modelled from the spec: half ego-lane width `EGO_CAR_HALF_VIRTUAL_LANE`,
declared in `cipv_camera.h` (not under `src/`).  The claims use it symbolically. -/
def EGO_CAR_HALF_VIRTUAL_LANE : ℚ := 7/4

/-- Modelled from the spec: minimum lane-line point count
`MIN_LANE_LINE_LENGTH_FOR_CIPV_DETERMINATION`, declared in `cipv_camera.h`
(not under `src/`). -/
def MIN_LANE_LINE_LENGTH_FOR_CIPV_DETERMINATION : ℕ := 2

/-- Modelled from the spec: per-frame time unit `AVERAGE_FRATE_RATE`, declared in
`cipv_camera.h` (not under `src/`).  The spec's scenarios use time unit `0.1`. -/
def AVERAGE_FRATE_RATE : ℚ := 1/10

/-- Modelled from the spec: bounded trajectory-history capacity
`DROPS_HISTORY_SIZE`, declared in `cipv_camera.h` (not under `src/`). -/
def DROPS_HISTORY_SIZE : ℕ := 20

/-- Modelled from the spec: maximum allowed consecutive-absence count
`MAX_ALLOWED_SKIP_OBJECT`, declared in `cipv_camera.h` (not under `src/`).
The claims use it symbolically ("maxSkip"). -/
def MAX_ALLOWED_SKIP_OBJECT : ℕ := 10

/-- Modelled from the spec: near-zero epsilon `B_FLT_EPSILON` from
`cipv_camera.h` (not under `src/`), used as the zero-length threshold on a
segment's squared length. -/
def B_FLT_EPSILON : ℚ := 1/10000

/-- Stand-in for `std::numeric_limits<float>::max()` (`MAX_FLOAT` in the
source).  `2^128` exceeds every finite `float` (whose maximum is about
`3.4e38`), so the sentinel comparisons behave as in the C++ code on any input
representable as a `float`. -/
def MAX_FLOAT : ℚ := 2^128

/-- A 2-D point (`Eigen::Vector2f` / `Point2Df`), in image or ground space. -/
abbrev Point2Df := ℚ × ℚ

/-- `LineSegment2Df`: an ordered start/end pair of points. -/
structure LineSegment2Df where
  start_point : Point2Df
  end_point : Point2Df
deriving DecidableEq

/-- `LaneLineSimple`: an ordered point sequence for one lane boundary. -/
structure LaneLineSimple where
  line_point : List Point2Df
deriving DecidableEq

/-- `EgoLane`: a left/right pair of `LaneLineSimple` in one coordinate space. -/
structure EgoLane where
  left_line : LaneLineSimple
  right_line : LaneLineSimple
deriving DecidableEq

/-- `base::LaneLinePositionType`, restricted to the cases `GetEgoLane` reads. -/
inductive LaneLinePositionType where
  | EGO_LEFT
  | EGO_RIGHT
  | OTHER
deriving DecidableEq

/-- A detected lane line (`base::LaneLine`): a position classification and the
index-aligned image-space and car(ground)-space point sequences. -/
structure LaneLine where
  pos_type : LaneLinePositionType
  curve_image_point_set : List Point2Df
  curve_car_coord_point_set : List Point2Df
deriving DecidableEq

/-- A detected object (`base::Object`), restricted to the fields
`cipv_camera.cc` reads or writes:
* `track_id`, the ground-plane `center` x/y, the 3-D `size`, the mutable CIPV
  flag `b_cipv`;
* `camera_supplement.box` as `box_x`/`box_y`/`box_width`/`box_height`;
* `cos_theta`/`sin_theta`: the values `cos(theta)`/`sin(theta)` that
  `FindClosestEdgeOfObjectGround` computes from `camera_supplement.alpha` and
  `atan2(local_center[0], local_center[2])` (folded by `M_PI_2` when above it).
  The fold and the transcendental functions are not rational, so the object
  carries the two resulting values directly; the corner geometry consumes
  exactly these two numbers. -/
structure Object where
  track_id : ℤ
  center0 : ℚ
  center1 : ℚ
  size0 : ℚ
  size1 : ℚ
  size2 : ℚ
  box_x : ℚ
  box_y : ℚ
  box_width : ℚ
  box_height : ℚ
  cos_theta : ℚ
  sin_theta : ℚ
  b_cipv : Bool
deriving DecidableEq

/-- Default object used for C++ vector indexing that is always in range. -/
def dummyObject : Object :=
  { track_id := 0, center0 := 0, center1 := 0, size0 := 0, size1 := 0, size2 := 0,
    box_x := 0, box_y := 0, box_width := 0, box_height := 0,
    cos_theta := 1, sin_theta := 0, b_cipv := false }

/-- `CipvOptions`: the per-frame scalar inputs of `DetermineCipv`. -/
structure CipvOptions where
  yaw_rate : ℚ
  velocity : ℚ
deriving DecidableEq

/-- A 3x3 matrix (`Eigen::Matrix3d`), row-major fields. -/
structure Mat3 where
  a00 : ℚ
  a01 : ℚ
  a02 : ℚ
  a10 : ℚ
  a11 : ℚ
  a12 : ℚ
  a20 : ℚ
  a21 : ℚ
  a22 : ℚ
deriving DecidableEq

/-- Matrix-vector product of a `Mat3` with a homogeneous 3-vector. -/
def mulVec3 (m : Mat3) (v : ℚ × ℚ × ℚ) : ℚ × ℚ × ℚ :=
  (m.a00 * v.1 + m.a01 * v.2.1 + m.a02 * v.2.2,
   m.a10 * v.1 + m.a11 * v.2.1 + m.a12 * v.2.2,
   m.a20 * v.1 + m.a21 * v.2.1 + m.a22 * v.2.2)

/-- Determinant of a `Mat3`. -/
def det3 (m : Mat3) : ℚ :=
  m.a00 * (m.a11 * m.a22 - m.a12 * m.a21)
    - m.a01 * (m.a10 * m.a22 - m.a12 * m.a20)
    + m.a02 * (m.a10 * m.a21 - m.a11 * m.a20)

/-- `Eigen::Matrix3d::inverse()` for a fixed-size 3x3 matrix: the transposed
cofactor matrix divided by the determinant.  For a singular matrix Eigen
produces non-finite doubles; here the rational division by zero yields `0`
(the singular case is never relied upon by a proof). -/
def inverse3 (m : Mat3) : Mat3 :=
  let d := det3 m
  { a00 := (m.a11 * m.a22 - m.a12 * m.a21) / d,
    a01 := -(m.a01 * m.a22 - m.a02 * m.a21) / d,
    a02 := (m.a01 * m.a12 - m.a02 * m.a11) / d,
    a10 := -(m.a10 * m.a22 - m.a12 * m.a20) / d,
    a11 := (m.a00 * m.a22 - m.a02 * m.a20) / d,
    a12 := -(m.a00 * m.a12 - m.a02 * m.a10) / d,
    a20 := (m.a10 * m.a21 - m.a11 * m.a20) / d,
    a21 := -(m.a00 * m.a21 - m.a01 * m.a20) / d,
    a22 := (m.a00 * m.a11 - m.a01 * m.a10) / d }

/-- The 3x3 identity matrix. -/
def id3 : Mat3 :=
  { a00 := 1, a01 := 0, a02 := 0, a10 := 0, a11 := 1, a12 := 0,
    a20 := 0, a21 := 0, a22 := 1 }

/-- The 3x3 zero matrix (a singular homography). -/
def zeroMat3 : Mat3 :=
  { a00 := 0, a01 := 0, a02 := 0, a10 := 0, a11 := 0, a12 := 0,
    a20 := 0, a21 := 0, a22 := 0 }

/-- The persistent state of a `Cipv` engine instance:
the two homography matrices and `time_unit_` / `b_image_based_cipv_` set by
`Init`, the function-local `static int32_t old_cipv_index` of `DetermineCipv`
(initialised to `-2`), and the member maps `object_trackjectories_` and
`object_id_skip_count_` used by `CollectDrops` (`std::map` modelled as an
association list; iteration order is immaterial to the proved properties). -/
structure CipvState where
  homography_im2car : Mat3
  homography_car2im : Mat3
  time_unit : ℚ
  b_image_based_cipv : Bool
  old_cipv_index : ℤ
  object_trackjectories : List (ℤ × List (ℚ × ℚ))
  object_id_skip_count : List (ℤ × ℕ)

/-- `Cipv::Init` (cipv_camera.cc lines 32-45): stores the image-to-ground
matrix, derives ground-to-image as its Eigen inverse, sets
`b_image_based_cipv_ = false` and `time_unit_ = AVERAGE_FRATE_RATE`, and
returns `true` unconditionally (no singularity check is performed).
The maps and the static index carry their program-start values. -/
def Init (homography_im2car : Mat3) : Bool × CipvState :=
  (true,
   { homography_im2car := homography_im2car,
     homography_car2im := inverse3 homography_im2car,
     time_unit := AVERAGE_FRATE_RATE,
     b_image_based_cipv := false,
     old_cipv_index := -2,
     object_trackjectories := [],
     object_id_skip_count := [] })

/-- `Cipv::image2ground` (lines 922-939): append 1, multiply by the
image-to-ground homography, perspective-divide by the third coordinate.
The C++ guard `fabs(p_ground[2]) > std::numeric_limits<double>::min()` is the
exact-arithmetic non-degeneracy test `p_ground.2.2 ≠ 0`. -/
def image2ground (st : CipvState) (image_x image_y : ℚ) : Option (ℚ × ℚ) :=
  let p_ground := mulVec3 st.homography_im2car (image_x, image_y, 1)
  if p_ground.2.2 = 0 then none
  else some (p_ground.1 / p_ground.2.2, p_ground.2.1 / p_ground.2.2)

/-- `Cipv::ground2image` (lines 942-959): the same computation through the
ground-to-image homography. -/
def ground2image (st : CipvState) (ground_x ground_y : ℚ) : Option (ℚ × ℚ) :=
  let p_image := mulVec3 st.homography_car2im (ground_x, ground_y, 1)
  if p_image.2.2 = 0 then none
  else some (p_image.1 / p_image.2.2, p_image.2.1 / p_image.2.2)

/-- Modelled from the spec: the clamped point-to-segment distance of
`common::math::LineSegment2d::DistanceTo` (`modules/common/math`, not under
`src/`; spec 4.4 "perpendicular/clamped distance from a point to a segment"),
returned SQUARED (order-isomorphic; see file header). -/
def distSqPointToSegment (p a b : Point2Df) : ℚ :=
  let dx := b.1 - a.1
  let dy := b.2 - a.2
  let t := (p.1 - a.1) * dx + (p.2 - a.2) * dy
  let len2 := dx * dx + dy * dy
  if t ≤ 0 then (p.1 - a.1) ^ 2 + (p.2 - a.2) ^ 2
  else if len2 ≤ t then (p.1 - b.1) ^ 2 + (p.2 - b.2) ^ 2
  else (dx * (p.2 - a.2) - dy * (p.1 - a.1)) ^ 2 / len2

/-- `Cipv::DistanceFromPointToLineSegment` (lines 48-62): fails when the
segment's squared length is at most `B_FLT_EPSILON`, otherwise returns the
(squared, see above) distance from the point to the segment. -/
def DistanceFromPointToLineSegment (point a b : Point2Df) : Option ℚ :=
  if (b.1 - a.1) * (b.1 - a.1) + (b.2 - a.2) * (b.2 - a.2) ≤ B_FLT_EPSILON then none
  else some (distSqPointToSegment point a b)

/-- `Cipv::IsPointLeftOfLine` (lines 537-564): sign of the 2-D cross product
of the segment vector with the point-minus-start vector; strictly positive
means left. -/
def IsPointLeftOfLine (point a b : Point2Df) : Bool :=
  decide (0 < (b.1 - a.1) * (point.2 - a.2) - (b.2 - a.2) * (point.1 - a.1))

/-- `Cipv::AreDistancesSane` (lines 479-534): rejects when any of the four
distances exceeds `MAX_DIST_OBJECT_TO_LANE_METER`, or when either implied
vehicle width (difference of start/end distances to the same boundary)
exceeds `MAX_VEHICLE_WIDTH_METER`. -/
def AreDistancesSane (distance_start_point_to_right_lane
    distance_start_point_to_left_lane
    distance_end_point_to_right_lane
    distance_end_point_to_left_lane : ℚ) : Bool :=
  if MAX_DIST_OBJECT_TO_LANE_METER < distance_start_point_to_right_lane then false
  else if MAX_DIST_OBJECT_TO_LANE_METER < distance_start_point_to_left_lane then false
  else if MAX_DIST_OBJECT_TO_LANE_METER < distance_end_point_to_right_lane then false
  else if MAX_DIST_OBJECT_TO_LANE_METER < distance_end_point_to_left_lane then false
  else if MAX_VEHICLE_WIDTH_METER <
      |distance_start_point_to_right_lane - distance_end_point_to_right_lane| then false
  else if MAX_VEHICLE_WIDTH_METER <
      |distance_end_point_to_left_lane - distance_start_point_to_left_lane| then false
  else true

/-- State of the two-smallest scan of `FindClosestEdgeOfObjectGround`
(lines 435-449): `closest_index`/`closest_x` and
`second_closest_index`/`second_closest_x`, indices as C++ `int32_t`. -/
structure SelSt where
  closest_index : ℤ
  closest_x : ℚ
  second_index : ℤ
  second_x : ℚ

/-- One iteration of the two-smallest scan (lines 440-448). -/
def selStep (x : Fin 4 → ℚ) (s : SelSt) (i : Fin 4) : SelSt :=
  if x i ≤ s.closest_x then
    { closest_index := (i : ℕ), closest_x := x i,
      second_index := s.closest_index, second_x := s.closest_x }
  else if x i ≤ s.second_x then
    { closest_index := s.closest_index, closest_x := s.closest_x,
      second_index := (i : ℕ), second_x := x i }
  else s

/-- The full scan over the four corners, starting from the sentinel state
`closest_x = MAX_FLOAT`, `second_closest_x = MAX_FLOAT - 1`, both indices `-1`
(lines 435-449); returns `(closest_index, second_closest_index)`. -/
def sel4 (x : Fin 4 → ℚ) : ℤ × ℤ :=
  let s := selStep x (selStep x (selStep x (selStep x
    { closest_index := -1, closest_x := MAX_FLOAT,
      second_index := -1, second_x := MAX_FLOAT - 1 } 0) 1) 2) 3
  (s.closest_index, s.second_index)

/-- The four rotated footprint corners `p[0..3]` of lines 402-426: half
extents `x1 = size_x/2`, `y1 = size_y/2` rotated by the heading
(`cos_theta`/`sin_theta`) about the projected footprint center. -/
def cornersOfObject (obj : Object) (c : Point2Df) : Fin 4 → Point2Df :=
  let x1 := obj.size0 * (1/2)
  let x2 := -x1
  let y1 := obj.size1 * (1/2)
  let y2 := -y1
  ![(x2 * obj.cos_theta + y1 * obj.sin_theta + c.1,
     y1 * obj.cos_theta - x2 * obj.sin_theta + c.2),
    (x2 * obj.cos_theta + y2 * obj.sin_theta + c.1,
     y2 * obj.cos_theta - x2 * obj.sin_theta + c.2),
    (x1 * obj.cos_theta + y1 * obj.sin_theta + c.1,
     y1 * obj.cos_theta - x1 * obj.sin_theta + c.2),
    (x1 * obj.cos_theta + y2 * obj.sin_theta + c.1,
     y2 * obj.cos_theta - x1 * obj.sin_theta + c.2)]

/-- C++ array indexing `p[i]` with an `int32_t` index; out-of-range access is
undefined behaviour in C++ and returns a junk point here (never reached on the
paths the proofs use). -/
def pget (p : Fin 4 → Point2Df) (i : ℤ) : Point2Df :=
  if h : 0 ≤ i ∧ i < 4 then p ⟨i.toNat, by omega⟩ else (0, 0)

/-- Orientation of the near face (lines 450-462): the corner with the larger
y becomes the start point, the other the end point (ties keep the first
argument first). -/
def orientEdge (a b : Point2Df) : LineSegment2Df :=
  if b.2 ≤ a.2 then { start_point := a, end_point := b }
  else { start_point := b, end_point := a }

/-- Corner selection, edge writing and the behind-vehicle filter of
`FindClosestEdgeOfObjectGround` (lines 435-476): scan for the two smallest-x
corners, write the oriented near face into the out-parameter, then fail if
the nearest corner's x is negative. -/
def edgeResult (p : Fin 4 → Point2Df) : Bool × LineSegment2Df :=
  let s := sel4 (fun i => (p i).1)
  let edge := orientEdge (pget p s.1) (pget p s.2)
  if (pget p s.1).1 < 0 then (false, edge) else (true, edge)

/-- `Cipv::FindClosestEdgeOfObjectGround` (lines 348-476).  The out-parameter
`closted_object_edge` is modelled by threading its prior value `edge0` and
returning the value it holds after the call together with the boolean result.
An object whose three sizes are all below `1.0e-2` is rejected before the
out-parameter is touched.  The footprint center comes from projecting the
image box's bottom-center through `image2ground`; the C++ code ignores that
call's result flag and would read indeterminate `center_x`/`center_y` on
failure (undefined behaviour), modelled by the junk center `(0, 0)`. -/
def FindClosestEdgeOfObjectGround (st : CipvState) (obj : Object)
    (edge0 : LineSegment2Df) : Bool × LineSegment2Df :=
  if obj.size0 < 1/100 ∧ obj.size1 < 1/100 ∧ obj.size2 < 1/100 then (false, edge0)
  else
    edgeResult (cornersOfObject obj
      ((image2ground st (obj.box_x + obj.box_width * (1/2))
        (obj.box_y + obj.box_height)).getD (0, 0)))

/-- List indexing `line_point[i]` with an `int` index (in range at every use). -/
def lget (pts : List Point2Df) (i : ℤ) : Point2Df :=
  pts.getD i.toNat (0, 0)

/-- The closest-segment scans of `IsObjectInTheLaneGround` (lines 614-628 and
655-669): over all consecutive point pairs of a boundary, find the segment
minimising the (squared) point-to-segment distance, skipping zero-length
segments; returns `(closest_index, shortest_distance)` starting from the
sentinel `(-1, MAX_FLOAT)`. -/
def closestSegmentIndex (pt : Point2Df) (pts : List Point2Df) : ℤ × ℚ :=
  (List.range (pts.length - 1)).foldl (fun s i =>
    match DistanceFromPointToLineSegment pt (pts.getD i (0, 0)) (pts.getD (i + 1) (0, 0)) with
    | some d => if d < s.2 then ((i : ℤ), d) else s
    | none => s) (-1, MAX_FLOAT)

/-- `Cipv::IsObjectInTheLaneGround` (lines 579-697).  The four local
variables `shortest_distance_start_point_to_right_lane` etc. are initialised
to `0.0f` at lines 586-589 and never reassigned; the call to
`AreDistancesSane` at line 686 therefore always receives these four zeros
(mirrored literally below). -/
def IsObjectInTheLaneGround (st : CipvState) (obj : Object)
    (egolane_ground : EgoLane) : Bool :=
  let shortest_distance_start_point_to_right_lane : ℚ := 0
  let shortest_distance_start_point_to_left_lane : ℚ := 0
  let shortest_distance_end_point_to_right_lane : ℚ := 0
  let shortest_distance_end_point_to_left_lane : ℚ := 0
  let r := FindClosestEdgeOfObjectGround st obj
    { start_point := (0, 0), end_point := (0, 0) }
  if r.1 = false then false
  else
    let closted_object_edge := r.2
    if egolane_ground.left_line.line_point.length ≤ 1 then false
    else
      let sL := closestSegmentIndex closted_object_edge.end_point
        egolane_ground.left_line.line_point
      let b_left_lane_clear :=
        if 0 ≤ sL.1 then
          !(IsPointLeftOfLine closted_object_edge.end_point
            (lget egolane_ground.left_line.line_point sL.1)
            (lget egolane_ground.left_line.line_point (sL.1 + 1)))
        else false
      if egolane_ground.right_line.line_point.length ≤ 1 then false
      else
        let sR := closestSegmentIndex closted_object_edge.start_point
          egolane_ground.right_line.line_point
        let b_right_lane_clear :=
          if 0 ≤ sR.1 then
            IsPointLeftOfLine closted_object_edge.start_point
              (lget egolane_ground.right_line.line_point sR.1)
              (lget egolane_ground.right_line.line_point (sR.1 + 1))
          else false
        if AreDistancesSane shortest_distance_start_point_to_right_lane
            shortest_distance_start_point_to_left_lane
            shortest_distance_end_point_to_right_lane
            shortest_distance_end_point_to_left_lane = true then
          b_left_lane_clear && b_right_lane_clear
        else false

/-- `Cipv::IsObjectInTheLaneImage` (lines 566-569): an inert stub that always
reports containment. -/
def IsObjectInTheLaneImage (st : CipvState) (obj : Object)
    (egolane_image : EgoLane) : Bool :=
  true

/-- `Cipv::IsObjectInTheLane` (lines 700-708): dispatch on
`b_image_based_cipv_`. -/
def IsObjectInTheLane (st : CipvState) (obj : Object)
    (egolane_image egolane_ground : EgoLane) : Bool :=
  if st.b_image_based_cipv = true then IsObjectInTheLaneImage st obj egolane_image
  else IsObjectInTheLaneGround st obj egolane_ground

/-- `Cipv::GetEgoLane` (lines 65-133): scan the lane-line list; an
ego-left/ego-right line with fewer than
`MIN_LANE_LINE_LENGTH_FOR_CIPV_DETERMINATION` image points marks that side
invalid, otherwise marks it valid and appends its image and car-coordinate
points, index-aligned, to the corresponding boundaries.  The C++ indexes
`curve_car_coord_point_set[j]` for every image index `j` (the two sequences
are index-aligned by the data-model invariant); `getD` supplies a junk point
where C++ would read out of bounds. -/
def GetEgoLane (lane_objects : List LaneLine) : EgoLane × EgoLane × Bool × Bool :=
  lane_objects.foldl (fun acc l =>
    let egolane_image := acc.1
    let egolane_ground := acc.2.1
    let b_left_valid := acc.2.2.1
    let b_right_valid := acc.2.2.2
    let ground_points := (List.range l.curve_image_point_set.length).map
      (fun j => l.curve_car_coord_point_set.getD j (0, 0))
    match l.pos_type with
    | LaneLinePositionType.EGO_LEFT =>
      if l.curve_image_point_set.length < MIN_LANE_LINE_LENGTH_FOR_CIPV_DETERMINATION then
        (egolane_image, egolane_ground, false, b_right_valid)
      else
        ({ egolane_image with left_line :=
            ⟨egolane_image.left_line.line_point ++ l.curve_image_point_set⟩ },
         { egolane_ground with left_line :=
            ⟨egolane_ground.left_line.line_point ++ ground_points⟩ },
         true, b_right_valid)
    | LaneLinePositionType.EGO_RIGHT =>
      if l.curve_image_point_set.length < MIN_LANE_LINE_LENGTH_FOR_CIPV_DETERMINATION then
        (egolane_image, egolane_ground, b_left_valid, false)
      else
        ({ egolane_image with right_line :=
            ⟨egolane_image.right_line.line_point ++ l.curve_image_point_set⟩ },
         { egolane_ground with right_line :=
            ⟨egolane_ground.right_line.line_point ++ ground_points⟩ },
         b_left_valid, true)
    | LaneLinePositionType.OTHER => acc)
    (⟨⟨[]⟩, ⟨[]⟩⟩, ⟨⟨[]⟩, ⟨[]⟩⟩, false, false)

/-- `Cipv::MakeVirtualLane` (lines 136-155): in ground-based mode, copy the
reference line with each y shifted by `offset_distance` (after clearing the
output); image-based mode leaves the cleared output empty. -/
def MakeVirtualLane (st : CipvState) (ref_lane_line : LaneLineSimple)
    (yaw_rate offset_distance : ℚ) : LaneLineSimple :=
  if st.b_image_based_cipv = false then
    ⟨ref_lane_line.line_point.map (fun q => (q.1, q.2 + offset_distance))⟩
  else ⟨[]⟩

/-- `Cipv::VehicleDynamics` (lines 157-177): the "straight model" writes
`x = time_unit * velocity` and `y = 0`; the `tick` and `yaw_rate` parameters
are accepted but unused (the curved model is commented out in the source). -/
def VehicleDynamics (tick : ℕ) (yaw_rate velocity time_unit : ℚ) : ℚ × ℚ :=
  (time_unit * velocity, 0)

/-- `Cipv::MakeVirtualEgoLaneFromYawRate` (lines 180-205): in ground-based
mode, for ticks `i = 0, 5, ..., 115` (24 iterations of `for (i = 0; i < 120;
i += 5)`) emit the `VehicleDynamics` point offset by `+offset_distance` on
the left and `-offset_distance` on the right. -/
def MakeVirtualEgoLaneFromYawRate (st : CipvState)
    (yaw_rate velocity offset_distance : ℚ) : LaneLineSimple × LaneLineSimple :=
  if st.b_image_based_cipv = false then
    let pts := (List.range 24).map
      (fun k => VehicleDynamics (5 * k) yaw_rate velocity st.time_unit)
    (⟨pts.map (fun q => (q.1, q.2 + offset_distance))⟩,
     ⟨pts.map (fun q => (q.1, q.2 - offset_distance))⟩)
  else (⟨[]⟩, ⟨[]⟩)

/-- `Cipv::ElongateEgoLane` (lines 208-255), ground-space effect (the
image-space ego lane is never modified).  Four-way policy on the validity
flags; the one-sided cases read `line_point[0]` of the valid boundary (junk
`(0,0)` where C++ would index an empty vector). -/
def ElongateEgoLane (st : CipvState) (b_left_valid b_right_valid : Bool)
    (yaw_rate velocity : ℚ) (egolane_ground : EgoLane) : EgoLane :=
  if b_left_valid && b_right_valid then egolane_ground
  else if !b_left_valid && b_right_valid then
    let offset_distance :=
      -(|(egolane_ground.right_line.line_point.getD 0 (0, 0)).2| +
        EGO_CAR_HALF_VIRTUAL_LANE)
    { egolane_ground with left_line :=
        (MakeVirtualLane st egolane_ground.right_line yaw_rate offset_distance) }
  else if b_left_valid && !b_right_valid then
    let offset_distance :=
      |(egolane_ground.left_line.line_point.getD 0 (0, 0)).2| +
        EGO_CAR_HALF_VIRTUAL_LANE
    { egolane_ground with right_line :=
        (MakeVirtualLane st egolane_ground.left_line yaw_rate offset_distance) }
  else
    let lanes := MakeVirtualEgoLaneFromYawRate st yaw_rate velocity
      EGO_CAR_HALF_VIRTUAL_LANE
    { left_line := lanes.1, right_line := lanes.2 }

/-- Write `objects[i]->b_cipv = b` for an `int32_t` index: out-of-range
indices leave the list unchanged (for a stale `old_cipv_index` beyond the
current list the C++ write would be out of bounds; see the design notes). -/
def setCipvAt : List Object → ℤ → Bool → List Object
  | [], _, _ => []
  | o :: t, i, b =>
    if i = 0 then { o with b_cipv := b } :: t
    else o :: setCipvAt t (i - 1) b

/-- Number of objects whose CIPV flag is set. -/
def countCipv (objs : List Object) : ℕ :=
  (objs.filter (fun o => o.b_cipv)).length

/-- `Cipv::DetermineCipv` (lines 712-802): build and elongate the ego lane,
select among contained objects the one with the smallest ground-plane forward
coordinate `center[0]` (first seen wins ties), clear the previous selection's
flag when it was valid and differs, set the new selection's flag, and persist
the new index into the static `old_cipv_index`.  Returns the mutated object
list and the updated engine state (the C++ function itself always returns
`true`). -/
def DetermineCipv (st : CipvState) (lane_objects : List LaneLine)
    (options : CipvOptions) (objects : List Object) : List Object × CipvState :=
  let lanes := GetEgoLane lane_objects
  let egolane_image := lanes.1
  let b_left_valid := lanes.2.2.1
  let b_right_valid := lanes.2.2.2
  let egolane_ground := ElongateEgoLane st b_left_valid b_right_valid
    options.yaw_rate options.velocity lanes.2.1
  let cipv_index := (List.range objects.length).foldl (fun ci i =>
    if IsObjectInTheLane st (objects.getD i dummyObject) egolane_image
        egolane_ground = true ∧
        (ci < 0 ∨ (objects.getD i dummyObject).center0 <
          (objects.getD ci.toNat dummyObject).center0) then (i : ℤ)
    else ci) (-1)
  let objects1 :=
    if 0 ≤ cipv_index then
      let objects0 :=
        if 0 ≤ st.old_cipv_index ∧ st.old_cipv_index ≠ cipv_index then
          setCipvAt objects st.old_cipv_index false
        else objects
      setCipvAt objects0 cipv_index true
    else objects
  (objects1, { st with old_cipv_index := cipv_index })

/-- Association-list lookup (`std::map::find` semantics). -/
def mapLookup {α : Type} : List (ℤ × α) → ℤ → Option α
  | [], _ => none
  | (k, v) :: t, i => if k = i then some v else mapLookup t i

/-- Association-list insert-or-assign (`std::map::operator[] =` semantics). -/
def mapInsert {α : Type} : List (ℤ × α) → ℤ → α → List (ℤ × α)
  | [], i, v => [(i, v)]
  | (k, w) :: t, i, v =>
    if k = i then (k, v) :: t else (k, w) :: mapInsert t i v

/-- Association-list erase (`std::map::erase` semantics on distinct keys). -/
def mapErase {α : Type} : List (ℤ × α) → ℤ → List (ℤ × α)
  | [], _ => []
  | (k, w) :: t, i => if k = i then t else (k, w) :: mapErase t i

/-- The key list of an association list. -/
def keys {α : Type} (m : List (ℤ × α)) : List ℤ :=
  m.map Prod.fst

/-- Well-formedness of an association-list map: keys occur at most once
(`std::map` guarantees this). -/
def keysNodup {α : Type} (m : List (ℤ × α)) : Prop :=
  (keys m).Nodup

instance keysNodupDecidable {α : Type} (m : List (ℤ × α)) : Decidable (keysNodup m) :=
  inferInstanceAs (Decidable (keys m).Nodup)

/-- `boost::circular_buffer::push_back` with capacity `cap`: append, dropping
the oldest entries beyond the capacity. -/
def boundedPush (cap : ℕ) (l : List (ℚ × ℚ)) (x : ℚ × ℚ) : List (ℚ × ℚ) :=
  let l1 := l ++ [x]
  if cap < l1.length then l1.drop (l1.length - cap) else l1

/-- The per-seen-object update of `Cipv::CollectDrops` (lines 836-881):
create the history with capacity `DROPS_HISTORY_SIZE` on first sighting,
reset the absence counter to zero, and append the object's ground center.
(The reprojection loop that follows in the source only computes values that
are discarded — `obj->drops.push_back` is commented out — so it has no state
effect; its buffer indexing is modelled by `dropMotionIndices` below.) -/
def seenUpdate (st : CipvState) (obj : Object) : CipvState :=
  let tr := (mapLookup st.object_trackjectories obj.track_id).getD []
  { st with
    object_trackjectories := mapInsert st.object_trackjectories obj.track_id
      (boundedPush DROPS_HISTORY_SIZE tr (obj.center0, obj.center1)),
    object_id_skip_count := mapInsert st.object_id_skip_count obj.track_id 0 }

/-- One step of the eviction sweep of `Cipv::CollectDrops` (lines 885-911)
for one tracked id `e.1`: if the id is absent from the current object list
and its (current) history is non-empty, increment its absence counter; once
the counter reaches `MAX_ALLOWED_SKIP_OBJECT`, erase both the history and the
counter. -/
def sweepStep (objects : List Object) (st : CipvState)
    (e : ℤ × List (ℚ × ℚ)) : CipvState :=
  if ∃ o ∈ objects, o.track_id = e.1 then st
  else if 0 < ((mapLookup st.object_trackjectories e.1).getD []).length then
    let c := (mapLookup st.object_id_skip_count e.1).getD 0 + 1
    if MAX_ALLOWED_SKIP_OBJECT ≤ c then
      { st with
        object_trackjectories := mapErase st.object_trackjectories e.1,
        object_id_skip_count := mapErase st.object_id_skip_count e.1 }
    else { st with object_id_skip_count := mapInsert st.object_id_skip_count e.1 c }
  else st

/-- The eviction sweep over the tracked ids (lines 885-911).  The C++
range-for erases elements of the map being iterated (invalidating the
iterator — see the notes on this known issue); the model folds over the
snapshot of the entries taken at loop entry. -/
def absentSweep (objects : List Object) (st : CipvState) : CipvState :=
  st.object_trackjectories.foldl (sweepStep objects) st

/-- `Cipv::CollectDrops` (lines 819-920).  The motion buffer's entries are
only dereferenced by the discarded reprojection (see `dropMotionIndices`), so
the state update depends only on its size: a size of zero fails immediately
with no state change; otherwise every listed object's history/counter is
updated and then the eviction sweep runs. -/
def CollectDrops (motion_size : ℕ) (objects : List Object)
    (st : CipvState) : Bool × CipvState :=
  if motion_size = 0 then (false, st)
  else (true, absentSweep objects (objects.foldl seenUpdate st))

/-- Iterated per-frame calls of `CollectDrops`: each frame supplies its
motion-buffer size and its object list. -/
def runFrames (frames : List (ℕ × List Object)) (st : CipvState) : CipvState :=
  frames.foldl (fun s f => (CollectDrops f.1 f.2 s).2) st

/-- The reprojection loop of `Cipv::CollectDrops` (lines 863-880), abstracted
to the sequence of motion-buffer indices it accesses: `it` runs from
`trajectory size - 1` down to `1` with `count` counting up; the loop breaks
when `count >= DROPS_HISTORY_SIZE || count > motion_buffer->size()` and
otherwise reads `(*motion_buffer)[motion_size - count - 1]`.  The index is
recorded as the mathematical integer `motion_size - count - 1`; the C++
expression wraps to a huge unsigned value when negative, which is equally out
of the valid range `[0, motion_size)`. -/
def dropLoop : ℕ → ℕ → ℕ → List ℤ
  | 0, _, _ => []
  | it + 1, count, motion_size =>
    if DROPS_HISTORY_SIZE ≤ count ∨ motion_size < count then []
    else ((motion_size : ℤ) - count - 1) :: dropLoop it (count + 1) motion_size

/-- The motion-buffer indices accessed for a track whose history (after this
frame's append) has `traj_size` points, given `motion_size` buffered motion
entries. -/
def dropMotionIndices (traj_size motion_size : ℕ) : List ℤ :=
  dropLoop (traj_size - 1) 0 motion_size

/-- Invariant of the two-smallest scan after the first `n` corners have been
processed: the scan state holds two distinct processed indices carrying the
minimum and the second-minimum x among the processed corners. -/
def SelInv (x : Fin 4 → ℚ) (n : ℕ) (s : SelSt) : Prop :=
  ∃ a b : Fin 4, a ≠ b ∧ (a : ℕ) < n ∧ (b : ℕ) < n ∧
    s = { closest_index := (a : ℕ), closest_x := x a,
          second_index := (b : ℕ), second_x := x b } ∧
    x a ≤ x b ∧
    (∀ m : Fin 4, (m : ℕ) < n → x a ≤ x m) ∧
    (∀ m : Fin 4, (m : ℕ) < n → m ≠ a → x b ≤ x m)

/-- An engine state produced by `Init` on the identity homography (so
image coordinates coincide with ground coordinates). -/
def stI : CipvState := (Init id3).2

/-- A degenerate-size object (all sizes zero, so it is never a lane
candidate) whose CIPV flag is already set on entry. -/
def objP1 : Object :=
  { track_id := 1, center0 := 5, center1 := 0, size0 := 0, size1 := 0, size2 := 0,
    box_x := 0, box_y := 0, box_width := 0, box_height := 0,
    cos_theta := 1, sin_theta := 0, b_cipv := true }

/-- A second pre-flagged degenerate object. -/
def objP2 : Object := { objP1 with track_id := 2, center0 := 6 }

/-- A degenerate object entering with its CIPV flag cleared. -/
def objW : Object := { objP1 with b_cipv := false }

/-- An axis-aligned 2m x 2m x 1m object whose footprint center projects to
ground point `(200, 0)`, far beyond the ends of the test ego lane. -/
def objC2 : Object :=
  { track_id := 7, center0 := 200, center1 := 0, size0 := 2, size1 := 2, size2 := 1,
    box_x := 200, box_y := 0, box_width := 0, box_height := 0,
    cos_theta := 1, sin_theta := 0, b_cipv := false }

/-- A short ground ego lane: left boundary at `y = 2`, right boundary at
`y = -2`, both spanning `x = 0..1`. -/
def laneC2 : EgoLane := ⟨⟨[(0, 2), (1, 2)]⟩, ⟨[(0, -2), (1, -2)]⟩⟩

/-- An axis-aligned 2m cube whose footprint center projects to `(-10, 0)`,
i.e. behind the ego vehicle. -/
def objC10 : Object :=
  { track_id := 3, center0 := -10, center1 := 0, size0 := 2, size1 := 2, size2 := 2,
    box_x := -10, box_y := 0, box_width := 0, box_height := 0,
    cos_theta := 1, sin_theta := 0, b_cipv := false }

/-- A non-trivial prior value for the edge out-parameter. -/
def edgeC10 : LineSegment2Df := { start_point := (5, 5), end_point := (6, 6) }

/-- An engine state in which track id 1 was just seen: its history holds one
point and its absence counter is zero. -/
def s7 : CipvState :=
  { stI with object_trackjectories := [(1, [(0, 0)])], object_id_skip_count := [(1, 0)] }

/-- Ten frames with a non-empty motion buffer and no objects at all. -/
def frames7 : List (ℕ × List Object) := List.replicate 10 (1, [])

/-! ### Helper lemmas -/

/-- The cofactor inverse is a left inverse on vectors whenever the
determinant is nonzero. -/
theorem inverse3_mulVec3 (m : Mat3) (v : ℚ × ℚ × ℚ) (hd : det3 m ≠ 0) :
    mulVec3 (inverse3 m) (mulVec3 m v) = v := by
  obtain ⟨x, y, z⟩ := v
  have hd' : m.a00 * (m.a11 * m.a22 - m.a12 * m.a21)
      - m.a01 * (m.a10 * m.a22 - m.a12 * m.a20)
      + m.a02 * (m.a10 * m.a21 - m.a11 * m.a20) ≠ 0 := hd
  simp only [mulVec3, inverse3, det3, Prod.mk.injEq]
  refine ⟨?_, ?_, ?_⟩ <;> field_simp <;> ring

/-- Applying a matrix to the perspective-divided image of a vector it maps to
`(ix, iy, 1)` yields that target scaled by the inverse of the divisor. -/
theorem mulVec3_perspective (I : Mat3) (p0 p1 p2 ix iy : ℚ) (hz : p2 ≠ 0)
    (h : mulVec3 I (p0, p1, p2) = (ix, iy, 1)) :
    mulVec3 I (p0 / p2, p1 / p2, 1) = (ix / p2, iy / p2, 1 / p2) := by
  simp only [mulVec3, Prod.mk.injEq] at h ⊢
  obtain ⟨h1, h2, h3⟩ := h
  refine ⟨?_, ?_, ?_⟩ <;> field_simp <;> linarith [h1, h2, h3]

theorem countCipv_cons (o : Object) (t : List Object) :
    countCipv (o :: t) = (if o.b_cipv then 1 else 0) + countCipv t := by
  simp only [countCipv, List.filter_cons]
  cases h : o.b_cipv <;> simp [h] <;> omega

theorem countCipv_eq_zero (l : List Object) (h0 : ∀ o ∈ l, o.b_cipv = false) :
    countCipv l = 0 := by
  induction l with
  | nil => rfl
  | cons o t ih =>
    rw [countCipv_cons, h0 o (by simp), ih (fun o ho => h0 o (by simp [ho]))]
    simp

theorem countCipv_setCipvAt_false_le (l : List Object) (i : ℤ) :
    countCipv (setCipvAt l i false) ≤ countCipv l := by
  induction l generalizing i with
  | nil => simp [setCipvAt]
  | cons o t ih =>
    simp only [setCipvAt]
    split_ifs with h
    · rw [countCipv_cons, countCipv_cons]
      cases o.b_cipv <;> simp <;> omega
    · rw [countCipv_cons, countCipv_cons]
      exact Nat.add_le_add_left (ih (i - 1)) _

theorem countCipv_setCipvAt_true_le (l : List Object) (i : ℤ) :
    countCipv (setCipvAt l i true) ≤ countCipv l + 1 := by
  induction l generalizing i with
  | nil => simp [setCipvAt]
  | cons o t ih =>
    simp only [setCipvAt]
    split_ifs with h
    · rw [countCipv_cons, countCipv_cons]
      cases o.b_cipv <;> simp <;> omega
    · rw [countCipv_cons, countCipv_cons]
      have := ih (i - 1)
      omega

/-! ### Claim theorems -/

/-- Claim C6 (counterexample): the claim "Init fails when the supplied matrix
is singular" is false — on the singular zero matrix `Init` still reports
success. -/
theorem Init_singular_counterexample :
    det3 zeroMat3 = 0 ∧ (Init zeroMat3).1 = true := by with_unfolding_all decide

/-- Claim C6 (amended): `Init` reports success unconditionally; it stores the
matrix together with its Eigen cofactor inverse whether or not the matrix is
singular — no singularity check is performed. -/
theorem Init_reports_success (H : Mat3) :
    (Init H).1 = true ∧ (Init H).2.homography_im2car = H ∧
      (Init H).2.homography_car2im = inverse3 H :=
  ⟨rfl, rfl, rfl⟩

/-- Claim C9: for every point at which the forward transform is exact-arithmetic
non-degenerate (`hz`) and the homography is invertible (`hdet`),
`ground2image (image2ground p)` succeeds and reproduces `p` exactly. -/
theorem image2ground_ground2image_roundtrip (H : Mat3) (image_x image_y : ℚ)
    (hdet : det3 H ≠ 0)
    (hz : (mulVec3 H (image_x, image_y, 1)).2.2 ≠ 0) :
    ∃ gx gy, image2ground (Init H).2 image_x image_y = some (gx, gy) ∧
      ground2image (Init H).2 gx gy = some (image_x, image_y) := by
  have hbase : mulVec3 (inverse3 H)
      ((mulVec3 H (image_x, image_y, 1)).1,
       (mulVec3 H (image_x, image_y, 1)).2.1,
       (mulVec3 H (image_x, image_y, 1)).2.2) = (image_x, image_y, 1) := by
    simpa using inverse3_mulVec3 H (image_x, image_y, 1) hdet
  have haux := mulVec3_perspective (inverse3 H)
    (mulVec3 H (image_x, image_y, 1)).1
    (mulVec3 H (image_x, image_y, 1)).2.1
    (mulVec3 H (image_x, image_y, 1)).2.2 image_x image_y hz hbase
  refine ⟨(mulVec3 H (image_x, image_y, 1)).1 / (mulVec3 H (image_x, image_y, 1)).2.2,
          (mulVec3 H (image_x, image_y, 1)).2.1 / (mulVec3 H (image_x, image_y, 1)).2.2,
          ?_, ?_⟩
  · simp only [image2ground, Init]
    rw [if_neg hz]
  · simp only [ground2image, Init]
    rw [haux]
    have hz2 : (1 : ℚ) / (mulVec3 H (image_x, image_y, 1)).2.2 ≠ 0 :=
      div_ne_zero one_ne_zero hz
    rw [if_neg hz2]
    simp only [Option.some.injEq, Prod.mk.injEq]
    constructor <;> field_simp

/-- Claim C9 (witness): the identity homography at the point `(2, 3)`. -/
theorem image2ground_ground2image_roundtrip_witness :
    det3 id3 ≠ 0 ∧ (mulVec3 id3 (2, 3, 1)).2.2 ≠ 0 ∧
    (∃ gx gy, image2ground (Init id3).2 2 3 = some (gx, gy) ∧
      ground2image (Init id3).2 gx gy = some (2, 3)) :=
  ⟨by with_unfolding_all decide, by with_unfolding_all decide,
   image2ground_ground2image_roundtrip id3 2 3 (by with_unfolding_all decide) (by with_unfolding_all decide)⟩

/-- Claim C4 (counterexample): with no valid boundary, velocity 10 and time
unit 0.1 (the `Init` value `AVERAGE_FRATE_RATE`), the first synthesized pair
has x-coordinate `1`, not `stepIndex * 0.1 * 10 = 0`, and the x-coordinates
do not increase along the step schedule (the second pair has the same x). -/
theorem ElongateEgoLane_x_counterexample :
    ((ElongateEgoLane stI false false 0 10 ⟨⟨[]⟩, ⟨[]⟩⟩).left_line.line_point.getD
        0 (0, 0)).1 = 1 ∧
    ((ElongateEgoLane stI false false 0 10 ⟨⟨[]⟩, ⟨[]⟩⟩).left_line.line_point.getD
        0 (0, 0)).1 ≠ 0 * AVERAGE_FRATE_RATE * 10 ∧
    ((ElongateEgoLane stI false false 0 10 ⟨⟨[]⟩, ⟨[]⟩⟩).left_line.line_point.getD
        0 (0, 0)).1 =
      ((ElongateEgoLane stI false false 0 10 ⟨⟨[]⟩, ⟨[]⟩⟩).left_line.line_point.getD
        1 (0, 0)).1 := by with_unfolding_all decide

/-- Claim C4 (amended): with neither boundary valid, velocity 10 and time
unit 0.1, `ElongateEgoLane` synthesizes exactly 24 left/right pairs with
`y = ±halfLaneWidth`, but every pair has the constant
`x = time_unit * velocity = 1`: the straight vehicle-dynamics model ignores
the step index, so x does not increase along the step schedule. -/
theorem ElongateEgoLane_no_lane_synthesis :
    ElongateEgoLane stI false false 0 10 ⟨⟨[]⟩, ⟨[]⟩⟩ =
      ⟨⟨List.replicate 24 (1, EGO_CAR_HALF_VIRTUAL_LANE)⟩,
       ⟨List.replicate 24 (1, -EGO_CAR_HALF_VIRTUAL_LANE)⟩⟩ := by with_unfolding_all decide

/-- Claim C5 (counterexample): with only the right boundary valid at constant
`y = r = -2`, the synthesized left boundary lies at
`y = r - (|r| + halfLaneWidth) = -23/4`, not at the claimed
`-(|r| + halfLaneWidth) = -15/4`. -/
theorem ElongateEgoLane_right_only_counterexample :
    ((ElongateEgoLane stI false true 0 0 ⟨⟨[]⟩, ⟨[(0, -2), (1, -2)]⟩⟩).left_line.line_point.getD
        0 (0, 0)).2 = -23/4 ∧
    (-23/4 : ℚ) ≠ -(|(-2 : ℚ)| + EGO_CAR_HALF_VIRTUAL_LANE) := by with_unfolding_all decide

/-- Claim C5 (amended): if only the right boundary is valid and every
right-boundary point has the same y-coordinate `r`, the synthesized left
boundary has `y = r - (|r| + halfLaneWidth)` at every index while each x is
copied from the corresponding right-boundary point; the right boundary
itself is left unchanged. -/
theorem ElongateEgoLane_right_only_offset (st : CipvState) (left0 : LaneLineSimple)
    (pts : List Point2Df) (r yaw_rate velocity : ℚ)
    (hmode : st.b_image_based_cipv = false)
    (hne : pts ≠ []) (hy : ∀ p ∈ pts, p.2 = r) :
    (ElongateEgoLane st false true yaw_rate velocity ⟨left0, ⟨pts⟩⟩).left_line.line_point =
      pts.map (fun q => (q.1, r - (|r| + EGO_CAR_HALF_VIRTUAL_LANE))) ∧
    (ElongateEgoLane st false true yaw_rate velocity ⟨left0, ⟨pts⟩⟩).right_line.line_point =
      pts := by
  obtain ⟨p, t, rfl⟩ := List.exists_cons_of_ne_nil hne
  have hp : p.2 = r := hy p (by simp)
  simp only [ElongateEgoLane, Bool.false_and, Bool.not_false, Bool.true_and,
    Bool.and_false, if_false, if_true, Bool.false_eq_true, MakeVirtualLane, hmode,
    if_pos rfl]
  refine ⟨?_, by trivial⟩
  refine List.map_congr_left ?_
  intro q hq
  have hq2 : q.2 = r := hy q hq
  simp [hq2, hp, sub_eq_add_neg]

/-- Claim C5 (witness): the amended statement instantiated on a two-point
right boundary at constant `y = -2`. -/
theorem ElongateEgoLane_right_only_offset_witness :
    stI.b_image_based_cipv = false ∧ ([(0, -2), (1, -2)] : List Point2Df) ≠ [] ∧
    (∀ p ∈ ([(0, -2), (1, -2)] : List Point2Df), p.2 = -2) ∧
    (ElongateEgoLane stI false true 0 0 ⟨⟨[]⟩, ⟨[(0, -2), (1, -2)]⟩⟩).left_line.line_point =
      ([(0, -2), (1, -2)] : List Point2Df).map
        (fun q => (q.1, -2 - (|(-2 : ℚ)| + EGO_CAR_HALF_VIRTUAL_LANE))) ∧
    (ElongateEgoLane stI false true 0 0 ⟨⟨[]⟩, ⟨[(0, -2), (1, -2)]⟩⟩).right_line.line_point =
      [(0, -2), (1, -2)] :=
  ⟨by with_unfolding_all decide, by with_unfolding_all decide, by with_unfolding_all decide,
   (ElongateEgoLane_right_only_offset stI ⟨[]⟩ [(0, -2), (1, -2)] (-2) 0 0
     (by with_unfolding_all decide) (by with_unfolding_all decide) (by with_unfolding_all decide)).1,
   (ElongateEgoLane_right_only_offset stI ⟨[]⟩ [(0, -2), (1, -2)] (-2) 0 0
     (by with_unfolding_all decide) (by with_unfolding_all decide) (by with_unfolding_all decide)).2⟩

/-- Claim C3: the reprojection loop of `CollectDrops` does NOT always stop
before the motion sequence is exhausted — for a track history of 3 points
and a motion buffer of size 1, the second buffered access uses index
`motionCount - count - 1 = -1`, outside `[0, motionCount - 1]` (the `count >
motion_size` guard lets `count = motion_size` through). -/
theorem CollectDrops_motion_index_out_of_range :
    dropMotionIndices 3 1 = [0, -1] ∧
    ¬ (∀ i ∈ dropMotionIndices 3 1, 0 ≤ i ∧ i < 1) := by with_unfolding_all decide

/-- Claim C2: the distance-sanity gate of `IsObjectInTheLaneGround` is inert.
The four `shortest_distance_*` locals are initialised to zero and never
reassigned, so `AreDistancesSane` always receives four zeros: an object whose
near-edge end point lies at squared distance `39213 > 70^2` from the left
boundary (far past its ends) is still reported as contained, although the
claim requires rejection whenever a measured distance exceeds the maximum
object-to-lane threshold. -/
theorem IsObjectInTheLaneGround_distance_gate_inert :
    IsObjectInTheLaneGround stI objC2 laneC2 = true ∧
    MAX_DIST_OBJECT_TO_LANE_METER ^ 2 <
      (closestSegmentIndex ((FindClosestEdgeOfObjectGround stI objC2
          { start_point := (0, 0), end_point := (0, 0) }).2).end_point
        laneC2.left_line.line_point).2 := by with_unfolding_all decide

/-- Claim C8: with an empty motion buffer, `CollectDrops` fails and leaves
the whole engine state — in particular the trajectory-history map and the
absence-counter map — exactly as it was. -/
theorem CollectDrops_empty_motion_identity (objects : List Object) (st : CipvState) :
    CollectDrops 0 objects st = (false, st) :=
  rfl

/-- Claim C1 (counterexample): the claim "after `DetermineCipv` at most one
object has its CIPV flag true" fails for objects whose flags are already set
on entry: two pre-flagged objects that both fail containment are left with
both flags true. -/
theorem DetermineCipv_two_flags_counterexample :
    countCipv (DetermineCipv stI [] ⟨0, 10⟩ [objP1, objP2]).1 = 2 := by with_unfolding_all decide

/-- Claim C1 (amended): after `DetermineCipv`, at most one object carries the
CIPV flag PROVIDED all flags are false on entry (the pass sets at most the
selected object's flag and otherwise only clears the previous index's flag;
flags it does not write keep their prior value, so pre-set flags survive). -/
theorem DetermineCipv_at_most_one_cipv (st : CipvState) (lane_objects : List LaneLine)
    (options : CipvOptions) (objects : List Object)
    (h0 : ∀ o ∈ objects, o.b_cipv = false) :
    countCipv (DetermineCipv st lane_objects options objects).1 ≤ 1 := by
  have hz : countCipv objects = 0 := countCipv_eq_zero objects h0
  have key : ∀ ci old : ℤ,
      countCipv (if 0 ≤ ci then
        setCipvAt (if 0 ≤ old ∧ old ≠ ci then setCipvAt objects old false else objects)
          ci true
      else objects) ≤ 1 := by
    intro ci old
    split_ifs with h1 h2
    · have hb := countCipv_setCipvAt_true_le (setCipvAt objects old false) ci
      have hb2 := countCipv_setCipvAt_false_le objects old
      omega
    · have hb := countCipv_setCipvAt_true_le objects ci
      omega
    · omega
  simp only [DetermineCipv]
  exact key _ st.old_cipv_index

/-- Claim C1 (witness): a singleton list entering with its flag cleared. -/
theorem DetermineCipv_at_most_one_cipv_witness :
    (∀ o ∈ [objW], o.b_cipv = false) ∧
    countCipv (DetermineCipv stI [] ⟨0, 10⟩ [objW]).1 ≤ 1 :=
  ⟨by with_unfolding_all decide, DetermineCipv_at_most_one_cipv stI [] ⟨0, 10⟩ [objW] (by with_unfolding_all decide)⟩

/-! ### The two-smallest corner scan -/

theorem selInv_two (x : Fin 4 → ℚ) (hx : ∀ i, x i ≤ MAX_FLOAT - 1) :
    SelInv x 2 (selStep x (selStep x
      { closest_index := -1, closest_x := MAX_FLOAT,
        second_index := -1, second_x := MAX_FLOAT - 1 } 0) 1) := by
  have h0 : x 0 ≤ MAX_FLOAT := by have := hx 0; linarith
  have hs0 : selStep x ⟨-1, MAX_FLOAT, -1, MAX_FLOAT - 1⟩ 0 =
      ⟨0, x 0, -1, MAX_FLOAT⟩ := by
    dsimp only [selStep]
    rw [if_pos h0]
    simp
  rw [hs0]
  by_cases h1 : x 1 ≤ x 0
  · have hs1 : selStep x ⟨0, x 0, -1, MAX_FLOAT⟩ 1 = ⟨1, x 1, 0, x 0⟩ := by
      dsimp only [selStep]
      rw [if_pos h1]
      simp
    rw [hs1]
    refine ⟨1, 0, by decide, by decide, by decide, rfl, h1, ?_, ?_⟩
    · intro m hm
      fin_cases m <;> simp_all <;> linarith
    · intro m hm hma
      fin_cases m <;> simp_all <;> linarith
  · have h1' : x 1 ≤ MAX_FLOAT := by have := hx 1; linarith
    have hs1 : selStep x ⟨0, x 0, -1, MAX_FLOAT⟩ 1 = ⟨0, x 0, 1, x 1⟩ := by
      dsimp only [selStep]
      rw [if_neg h1, if_pos h1']
      simp
    rw [hs1]
    refine ⟨0, 1, by decide, by decide, by decide, rfl, le_of_not_le h1, ?_, ?_⟩
    · intro m hm
      fin_cases m <;> simp_all <;> linarith
    · intro m hm hma
      fin_cases m <;> simp_all <;> linarith

theorem selStep_preserves (x : Fin 4 → ℚ) (n : ℕ) (s : SelSt) (i : Fin 4)
    (hi : (i : ℕ) = n) (hs : SelInv x n s) :
    SelInv x (n + 1) (selStep x s i) := by
  obtain ⟨a, b, hab, ha, hb, rfl, hle, hmin, hsec⟩ := hs
  dsimp only [selStep]
  split_ifs with h1 h2
  · refine ⟨i, a, ?_, by omega, by omega, rfl, h1, ?_, ?_⟩
    · intro hia
      rw [hia] at hi
      omega
    · intro m hm
      by_cases hmn : (m : ℕ) = n
      · have hmi : m = i := Fin.ext (by omega)
        rw [hmi]
      · exact le_trans h1 (hmin m (by omega))
    · intro m hm hmi
      have hmn : (m : ℕ) ≠ n := fun hc => hmi (Fin.ext (by omega))
      exact hmin m (by omega)
  · refine ⟨a, i, ?_, by omega, by omega, rfl, le_of_lt (not_le.mp h1), ?_, ?_⟩
    · intro hai
      rw [hai] at ha
      omega
    · intro m hm
      by_cases hmn : (m : ℕ) = n
      · have hmi : m = i := Fin.ext (by omega)
        rw [hmi]
        exact le_of_lt (not_le.mp h1)
      · exact hmin m (by omega)
    · intro m hm hma
      by_cases hmn : (m : ℕ) = n
      · have hmi : m = i := Fin.ext (by omega)
        rw [hmi]
      · exact le_trans h2 (hsec m (by omega) hma)
  · refine ⟨a, b, hab, by omega, by omega, rfl, hle, ?_, ?_⟩
    · intro m hm
      by_cases hmn : (m : ℕ) = n
      · have hmi : m = i := Fin.ext (by omega)
        rw [hmi]
        exact le_of_lt (lt_of_le_of_lt hle (not_le.mp h2))
      · exact hmin m (by omega)
    · intro m hm hma
      by_cases hmn : (m : ℕ) = n
      · have hmi : m = i := Fin.ext (by omega)
        rw [hmi]
        exact le_of_lt (not_le.mp h2)
      · exact hsec m (by omega) hma

/-- Correctness of the literal two-smallest scan: it returns two distinct
corner indices holding the minimum x and the second-minimum x (the float
range bound `hx` reflects that every C++ float is at most `MAX_FLOAT`). -/
theorem sel4_spec (x : Fin 4 → ℚ) (hx : ∀ i, x i ≤ MAX_FLOAT - 1) :
    ∃ a b : Fin 4, a ≠ b ∧ sel4 x = (((a : ℕ) : ℤ), ((b : ℕ) : ℤ)) ∧ x a ≤ x b ∧
      (∀ m, x a ≤ x m) ∧ (∀ m, m ≠ a → x b ≤ x m) := by
  have h2 := selInv_two x hx
  have h3 := selStep_preserves x 2 _ 2 rfl h2
  have h4 := selStep_preserves x 3 _ 3 rfl h3
  obtain ⟨a, b, hab, ha, hb, hs, hle, hmin, hsec⟩ := h4
  refine ⟨a, b, hab, ?_, hle, fun m => hmin m m.isLt, fun m hm => hsec m m.isLt hm⟩
  simp only [sel4]
  rw [hs]

theorem pget_coe (p : Fin 4 → Point2Df) (i : Fin 4) :
    pget p (((i : ℕ) : ℤ)) = p i := by
  rw [pget, dif_pos ⟨Int.natCast_nonneg _, by exact_mod_cast i.isLt⟩]
  exact congrArg p (Fin.ext (Int.toNat_natCast _))

theorem orientEdge_y (a b : Point2Df) :
    (orientEdge a b).end_point.2 ≤ (orientEdge a b).start_point.2 := by
  rw [orientEdge]
  split_ifs with h
  · exact h
  · exact le_of_lt (not_le.mp h)

/-- On the behind-vehicle error path, the corner-scan stage still returns the
fully written near-face edge built from the two smallest-x corners. -/
theorem edgeResult_spec (p : Fin 4 → Point2Df)
    (hx : ∀ i, (p i).1 ≤ MAX_FLOAT - 1)
    (hneg : ∃ i, (p i).1 < 0) :
    ∃ a b : Fin 4, a ≠ b ∧
      edgeResult p = (false, orientEdge (p a) (p b)) ∧
      (∀ m, (p a).1 ≤ (p m).1) ∧ (∀ m, m ≠ a → (p b).1 ≤ (p m).1) := by
  obtain ⟨a, b, hab, hsel, hle, hmin, hsec⟩ := sel4_spec (fun i => (p i).1) hx
  obtain ⟨w, hw⟩ := hneg
  have hneg2 : (pget p ((a : ℕ) : ℤ)).1 < 0 := by
    rw [pget_coe]
    exact lt_of_le_of_lt (hmin w) hw
  refine ⟨a, b, hab, ?_, hmin, hsec⟩
  simp only [edgeResult]
  rw [hsel]
  dsimp only
  rw [if_pos hneg2, pget_coe, pget_coe]

/-- Claim C10: for every object with non-degenerate size whose footprint
center projects successfully and whose nearest rotated footprint corner has a
negative forward coordinate, `FindClosestEdgeOfObjectGround` reports failure,
but the out-parameter has already been fully overwritten with the computed
near face: an oriented edge over the two smallest-x corners (`a` nearest, `b`
second) whose start point has the larger y. -/
theorem FindClosestEdgeOfObjectGround_writes_edge_on_failure (st : CipvState)
    (obj : Object) (edge0 : LineSegment2Df) (cx cy : ℚ)
    (hnd : ¬(obj.size0 < 1/100 ∧ obj.size1 < 1/100 ∧ obj.size2 < 1/100))
    (hproj : image2ground st (obj.box_x + obj.box_width * (1/2))
      (obj.box_y + obj.box_height) = some (cx, cy))
    (hx : ∀ i, (cornersOfObject obj (cx, cy) i).1 ≤ MAX_FLOAT - 1)
    (hneg : ∃ i, (cornersOfObject obj (cx, cy) i).1 < 0) :
    ∃ a b : Fin 4, a ≠ b ∧
      FindClosestEdgeOfObjectGround st obj edge0 =
        (false, orientEdge (cornersOfObject obj (cx, cy) a)
          (cornersOfObject obj (cx, cy) b)) ∧
      (∀ m, (cornersOfObject obj (cx, cy) a).1 ≤ (cornersOfObject obj (cx, cy) m).1) ∧
      (∀ m, m ≠ a →
        (cornersOfObject obj (cx, cy) b).1 ≤ (cornersOfObject obj (cx, cy) m).1) ∧
      (orientEdge (cornersOfObject obj (cx, cy) a)
          (cornersOfObject obj (cx, cy) b)).end_point.2 ≤
        (orientEdge (cornersOfObject obj (cx, cy) a)
          (cornersOfObject obj (cx, cy) b)).start_point.2 := by
  obtain ⟨a, b, hab, hres, hmin, hsec⟩ :=
    edgeResult_spec (cornersOfObject obj (cx, cy)) hx hneg
  refine ⟨a, b, hab, ?_, hmin, hsec, orientEdge_y _ _⟩
  rw [FindClosestEdgeOfObjectGround, if_neg hnd, hproj]
  simpa using hres

/-- Claim C10 (witness): a 2m cube whose footprint projects to `(-10, 0)`;
the call fails but the out-parameter is overwritten (it no longer equals its
prior value `edgeC10`). -/
theorem FindClosestEdgeOfObjectGround_writes_edge_on_failure_witness :
    (¬(objC10.size0 < 1/100 ∧ objC10.size1 < 1/100 ∧ objC10.size2 < 1/100)) ∧
    image2ground stI (objC10.box_x + objC10.box_width * (1/2))
      (objC10.box_y + objC10.box_height) = some (-10, 0) ∧
    (∀ i, (cornersOfObject objC10 (-10, 0) i).1 ≤ MAX_FLOAT - 1) ∧
    (∃ i, (cornersOfObject objC10 (-10, 0) i).1 < 0) ∧
    (∃ a b : Fin 4, a ≠ b ∧
      FindClosestEdgeOfObjectGround stI objC10 edgeC10 =
        (false, orientEdge (cornersOfObject objC10 (-10, 0) a)
          (cornersOfObject objC10 (-10, 0) b)) ∧
      (∀ m, (cornersOfObject objC10 (-10, 0) a).1 ≤ (cornersOfObject objC10 (-10, 0) m).1) ∧
      (∀ m, m ≠ a →
        (cornersOfObject objC10 (-10, 0) b).1 ≤ (cornersOfObject objC10 (-10, 0) m).1) ∧
      (orientEdge (cornersOfObject objC10 (-10, 0) a)
          (cornersOfObject objC10 (-10, 0) b)).end_point.2 ≤
        (orientEdge (cornersOfObject objC10 (-10, 0) a)
          (cornersOfObject objC10 (-10, 0) b)).start_point.2) ∧
    (FindClosestEdgeOfObjectGround stI objC10 edgeC10).2 ≠ edgeC10 :=
  ⟨by with_unfolding_all decide, by with_unfolding_all decide,
   by with_unfolding_all decide, by with_unfolding_all decide,
   FindClosestEdgeOfObjectGround_writes_edge_on_failure stI objC10 edgeC10 (-10) 0
     (by with_unfolding_all decide) (by with_unfolding_all decide)
     (by with_unfolding_all decide) (by with_unfolding_all decide),
   by with_unfolding_all decide⟩

/-! ### Association-map lemmas -/

theorem mapLookup_eq_none {α : Type} (m : List (ℤ × α)) (k : ℤ)
    (h : k ∉ keys m) : mapLookup m k = none := by
  induction m with
  | nil => rfl
  | cons e t ih =>
    obtain ⟨ek, ev⟩ := e
    simp only [keys, List.map_cons, List.mem_cons, not_or] at h
    have h1 : ek ≠ k := fun hc => h.1 hc.symm
    simp only [mapLookup, if_neg h1]
    exact ih (by simpa [keys] using h.2)

theorem mapLookup_mapInsert_self {α : Type} (m : List (ℤ × α)) (k : ℤ) (v : α) :
    mapLookup (mapInsert m k v) k = some v := by
  induction m with
  | nil => simp [mapInsert, mapLookup]
  | cons e t ih =>
    obtain ⟨ek, ev⟩ := e
    by_cases h : ek = k
    · simp [mapInsert, mapLookup, h]
    · simp [mapInsert, mapLookup, h, ih]

theorem mapLookup_mapInsert_ne {α : Type} (m : List (ℤ × α)) (k i : ℤ) (v : α)
    (h : k ≠ i) : mapLookup (mapInsert m k v) i = mapLookup m i := by
  have h' : i ≠ k := Ne.symm h
  induction m with
  | nil => simp [mapInsert, mapLookup, h]
  | cons e t ih =>
    obtain ⟨ek, ev⟩ := e
    by_cases h2 : ek = k
    · subst h2
      simp [mapInsert, mapLookup, h]
    · by_cases h3 : ek = i <;> simp [mapInsert, mapLookup, h2, h3, h, h', ih]

theorem mapLookup_mapErase_ne {α : Type} (m : List (ℤ × α)) (k i : ℤ)
    (h : k ≠ i) : mapLookup (mapErase m k) i = mapLookup m i := by
  have h' : i ≠ k := Ne.symm h
  induction m with
  | nil => simp [mapErase]
  | cons e t ih =>
    obtain ⟨ek, ev⟩ := e
    by_cases h2 : ek = k
    · subst h2
      simp [mapErase, mapLookup, h]
    · by_cases h3 : ek = i <;> simp [mapErase, mapLookup, h2, h3, h, h', ih]

theorem mapLookup_mapErase_self {α : Type} (m : List (ℤ × α)) (k : ℤ)
    (hnod : keysNodup m) : mapLookup (mapErase m k) k = none := by
  induction m with
  | nil => rfl
  | cons e t ih =>
    obtain ⟨ek, ev⟩ := e
    simp only [keysNodup, keys, List.map_cons, List.nodup_cons] at hnod
    obtain ⟨hnotin, hnt⟩ := hnod
    by_cases h2 : ek = k
    · subst h2
      have he : mapErase ((ek, ev) :: t) ek = t := by simp [mapErase]
      rw [he]
      exact mapLookup_eq_none t ek (by simpa [keys] using hnotin)
    · have he : mapErase ((ek, ev) :: t) k = (ek, ev) :: mapErase t k := by
        simp [mapErase, h2]
      rw [he]
      simp only [mapLookup, if_neg h2]
      exact ih hnt

theorem mem_keys_mapInsert {α : Type} (m : List (ℤ × α)) (k i : ℤ) (v : α)
    (h : i ∈ keys (mapInsert m k v)) : i ∈ keys m ∨ i = k := by
  induction m with
  | nil => simpa [mapInsert, keys] using h
  | cons e t ih =>
    obtain ⟨ek, ev⟩ := e
    by_cases h2 : ek = k
    · subst h2
      have he : mapInsert ((ek, ev) :: t) ek v = (ek, v) :: t := by simp [mapInsert]
      rw [he] at h
      simp only [keys, List.map_cons, List.mem_cons] at h ⊢
      tauto
    · have he : mapInsert ((ek, ev) :: t) k v = (ek, ev) :: mapInsert t k v := by
        simp [mapInsert, h2]
      rw [he] at h
      simp only [keys, List.map_cons, List.mem_cons] at h ⊢
      rcases h with h | h
      · exact Or.inl (Or.inl h)
      · rcases ih (by simpa [keys] using h) with h3 | h3
        · exact Or.inl (Or.inr (by simpa [keys] using h3))
        · exact Or.inr h3

theorem keysNodup_mapInsert {α : Type} (m : List (ℤ × α)) (k : ℤ) (v : α)
    (h : keysNodup m) : keysNodup (mapInsert m k v) := by
  induction m with
  | nil => simp [mapInsert, keysNodup, keys]
  | cons e t ih =>
    obtain ⟨ek, ev⟩ := e
    simp only [keysNodup, keys, List.map_cons, List.nodup_cons] at h
    obtain ⟨hnotin, hnt⟩ := h
    by_cases h2 : ek = k
    · subst h2
      have he : mapInsert ((ek, ev) :: t) ek v = (ek, v) :: t := by simp [mapInsert]
      rw [he]
      simp only [keysNodup, keys, List.map_cons, List.nodup_cons]
      exact ⟨by simpa [keys] using hnotin, hnt⟩
    · have he : mapInsert ((ek, ev) :: t) k v = (ek, ev) :: mapInsert t k v := by
        simp [mapInsert, h2]
      rw [he]
      simp only [keysNodup, keys, List.map_cons, List.nodup_cons]
      refine ⟨?_, by simpa [keysNodup, keys] using ih hnt⟩
      intro hc
      rcases mem_keys_mapInsert t k ek v (by simpa [keys] using hc) with h3 | h3
      · exact hnotin (by simpa [keys] using h3)
      · exact h2 h3

theorem keys_mapErase_sublist {α : Type} (m : List (ℤ × α)) (k : ℤ) :
    List.Sublist (keys (mapErase m k)) (keys m) := by
  induction m with
  | nil => simp [mapErase, keys]
  | cons e t ih =>
    obtain ⟨ek, ev⟩ := e
    by_cases h2 : ek = k
    · have he : mapErase ((ek, ev) :: t) k = t := by simp [mapErase, h2]
      rw [he]
      simp only [keys, List.map_cons]
      exact List.sublist_cons_self _ _
    · have he : mapErase ((ek, ev) :: t) k = (ek, ev) :: mapErase t k := by
        simp [mapErase, h2]
      rw [he]
      simp only [keys, List.map_cons]
      exact List.Sublist.cons₂ _ ih

theorem keysNodup_mapErase {α : Type} (m : List (ℤ × α)) (k : ℤ)
    (h : keysNodup m) : keysNodup (mapErase m k) :=
  List.Nodup.sublist (keys_mapErase_sublist m k) h

theorem mapLookup_split {α : Type} (m : List (ℤ × α)) (i : ℤ) (v : α)
    (hnod : keysNodup m) (h : mapLookup m i = some v) :
    ∃ l1 l2, m = l1 ++ (i, v) :: l2 ∧ (∀ e ∈ l1, e.1 ≠ i) ∧ (∀ e ∈ l2, e.1 ≠ i) := by
  induction m with
  | nil => simp [mapLookup] at h
  | cons e t ih =>
    obtain ⟨ek, ev⟩ := e
    simp only [keysNodup, keys, List.map_cons, List.nodup_cons] at hnod
    obtain ⟨hnotin, hnt⟩ := hnod
    by_cases h2 : ek = i
    · subst h2
      rw [mapLookup, if_pos rfl] at h
      obtain rfl : ev = v := by injection h
      refine ⟨[], t, by simp, by simp, ?_⟩
      intro e he hc
      exact hnotin (by rw [← hc]; exact List.mem_map_of_mem _ he)
    · rw [mapLookup, if_neg h2] at h
      obtain ⟨l1, l2, heq, hl1, hl2⟩ := ih (by simpa [keysNodup, keys] using hnt) h
      refine ⟨(ek, ev) :: l1, l2, by rw [heq]; rfl, ?_, hl2⟩
      intro e he
      rcases List.mem_cons.mp he with rfl | he2
      · exact h2
      · exact hl1 e he2

/-! ### `CollectDrops` step lemmas -/

theorem sweepStep_lookup_ne (objects : List Object) (st : CipvState)
    (e : ℤ × List (ℚ × ℚ)) (i : ℤ) (h : e.1 ≠ i) :
    mapLookup (sweepStep objects st e).object_trackjectories i =
      mapLookup st.object_trackjectories i ∧
    mapLookup (sweepStep objects st e).object_id_skip_count i =
      mapLookup st.object_id_skip_count i := by
  rw [sweepStep]
  dsimp only
  split_ifs
  · exact ⟨rfl, rfl⟩
  · exact ⟨mapLookup_mapErase_ne _ _ _ h, mapLookup_mapErase_ne _ _ _ h⟩
  · exact ⟨rfl, mapLookup_mapInsert_ne _ _ _ _ h⟩
  · exact ⟨rfl, rfl⟩

theorem sweepStep_keysNodup (objects : List Object) (st : CipvState)
    (e : ℤ × List (ℚ × ℚ))
    (ht : keysNodup st.object_trackjectories)
    (hs : keysNodup st.object_id_skip_count) :
    keysNodup (sweepStep objects st e).object_trackjectories ∧
      keysNodup (sweepStep objects st e).object_id_skip_count := by
  rw [sweepStep]
  dsimp only
  split_ifs
  · exact ⟨ht, hs⟩
  · exact ⟨keysNodup_mapErase _ _ ht, keysNodup_mapErase _ _ hs⟩
  · exact ⟨ht, keysNodup_mapInsert _ _ _ hs⟩
  · exact ⟨ht, hs⟩

theorem sweepFold_lookup_ne (objects : List Object)
    (l : List (ℤ × List (ℚ × ℚ))) (st : CipvState) (i : ℤ)
    (h : ∀ e ∈ l, e.1 ≠ i) :
    mapLookup (l.foldl (sweepStep objects) st).object_trackjectories i =
      mapLookup st.object_trackjectories i ∧
    mapLookup (l.foldl (sweepStep objects) st).object_id_skip_count i =
      mapLookup st.object_id_skip_count i := by
  induction l generalizing st with
  | nil => exact ⟨rfl, rfl⟩
  | cons e t ih =>
    simp only [List.foldl_cons]
    obtain ⟨ih1, ih2⟩ := ih (sweepStep objects st e) (fun e2 he2 => h e2 (List.mem_cons_of_mem _ he2))
    have he := h e (by simp)
    obtain ⟨hstep1, hstep2⟩ := sweepStep_lookup_ne objects st e i he
    exact ⟨ih1.trans hstep1, ih2.trans hstep2⟩

theorem sweepFold_keysNodup (objects : List Object)
    (l : List (ℤ × List (ℚ × ℚ))) (st : CipvState)
    (ht : keysNodup st.object_trackjectories)
    (hs : keysNodup st.object_id_skip_count) :
    keysNodup (l.foldl (sweepStep objects) st).object_trackjectories ∧
      keysNodup (l.foldl (sweepStep objects) st).object_id_skip_count := by
  induction l generalizing st with
  | nil => exact ⟨ht, hs⟩
  | cons e t ih =>
    simp only [List.foldl_cons]
    obtain ⟨h1, h2⟩ := sweepStep_keysNodup objects st e ht hs
    exact ih (sweepStep objects st e) h1 h2

theorem seenFold_lookup_ne (objects : List Object) (st : CipvState) (i : ℤ)
    (h : ∀ o ∈ objects, o.track_id ≠ i) :
    mapLookup (objects.foldl seenUpdate st).object_trackjectories i =
      mapLookup st.object_trackjectories i ∧
    mapLookup (objects.foldl seenUpdate st).object_id_skip_count i =
      mapLookup st.object_id_skip_count i := by
  induction objects generalizing st with
  | nil => exact ⟨rfl, rfl⟩
  | cons o t ih =>
    simp only [List.foldl_cons]
    obtain ⟨ih1, ih2⟩ := ih (seenUpdate st o) (fun o2 ho2 => h o2 (List.mem_cons_of_mem _ ho2))
    have ho := h o (by simp)
    exact ⟨ih1.trans (mapLookup_mapInsert_ne _ _ _ _ ho),
           ih2.trans (mapLookup_mapInsert_ne _ _ _ _ ho)⟩

theorem seenFold_keysNodup (objects : List Object) (st : CipvState)
    (ht : keysNodup st.object_trackjectories)
    (hs : keysNodup st.object_id_skip_count) :
    keysNodup (objects.foldl seenUpdate st).object_trackjectories ∧
      keysNodup (objects.foldl seenUpdate st).object_id_skip_count := by
  induction objects generalizing st with
  | nil => exact ⟨ht, hs⟩
  | cons o t ih =>
    simp only [List.foldl_cons]
    exact ih (seenUpdate st o) (keysNodup_mapInsert _ _ _ ht) (keysNodup_mapInsert _ _ _ hs)

theorem sweepStep_eval (objects : List Object) (st : CipvState) (i : ℤ)
    (h0 hv : List (ℚ × ℚ)) (k : ℕ)
    (habs : ∀ o ∈ objects, o.track_id ≠ i)
    (ht : mapLookup st.object_trackjectories i = some hv) (hne : hv ≠ [])
    (hs : mapLookup st.object_id_skip_count i = some k) :
    sweepStep objects st (i, h0) =
      (if MAX_ALLOWED_SKIP_OBJECT ≤ k + 1 then
        { st with
          object_trackjectories := mapErase st.object_trackjectories i,
          object_id_skip_count := mapErase st.object_id_skip_count i }
      else
        { st with object_id_skip_count := mapInsert st.object_id_skip_count i (k + 1) }) := by
  have hfound : ¬ ∃ o ∈ objects, o.track_id = (i, h0).1 := by
    rintro ⟨o, ho, hc⟩
    exact habs o ho hc
  rw [sweepStep, if_neg hfound]
  dsimp only
  rw [ht, hs]
  dsimp only [Option.getD_some]
  rw [if_pos (List.length_pos.mpr hne)]

theorem collectDrops_absent_frame (ms : ℕ) (objects : List Object)
    (st : CipvState) (i : ℤ) (hv : List (ℚ × ℚ)) (k : ℕ)
    (hm : ms ≠ 0)
    (ht0 : keysNodup st.object_trackjectories)
    (hs0 : keysNodup st.object_id_skip_count)
    (ht : mapLookup st.object_trackjectories i = some hv) (hne : hv ≠ [])
    (hs : mapLookup st.object_id_skip_count i = some k)
    (habs : ∀ o ∈ objects, o.track_id ≠ i) :
    keysNodup (CollectDrops ms objects st).2.object_trackjectories ∧
    keysNodup (CollectDrops ms objects st).2.object_id_skip_count ∧
    (if MAX_ALLOWED_SKIP_OBJECT ≤ k + 1 then
      mapLookup (CollectDrops ms objects st).2.object_trackjectories i = none ∧
      mapLookup (CollectDrops ms objects st).2.object_id_skip_count i = none
    else
      mapLookup (CollectDrops ms objects st).2.object_trackjectories i = some hv ∧
      mapLookup (CollectDrops ms objects st).2.object_id_skip_count i = some (k + 1)) := by
  rw [CollectDrops, if_neg hm]
  dsimp only
  obtain ⟨hf1, hf2⟩ := seenFold_lookup_ne objects st i habs
  obtain ⟨hfn1, hfn2⟩ := seenFold_keysNodup objects st ht0 hs0
  have hs1t : mapLookup (objects.foldl seenUpdate st).object_trackjectories i = some hv :=
    hf1.trans ht
  have hs1s : mapLookup (objects.foldl seenUpdate st).object_id_skip_count i = some k :=
    hf2.trans hs
  obtain ⟨l1, l2, hsplit, hl1, hl2⟩ :=
    mapLookup_split (objects.foldl seenUpdate st).object_trackjectories i hv hfn1 hs1t
  rw [absentSweep, hsplit, List.foldl_append, List.foldl_cons]
  obtain ⟨hA1, hA2⟩ := sweepFold_lookup_ne objects l1 (objects.foldl seenUpdate st) i hl1
  obtain ⟨hAn1, hAn2⟩ := sweepFold_keysNodup objects l1 (objects.foldl seenUpdate st) hfn1 hfn2
  have heval := sweepStep_eval objects (l1.foldl (sweepStep objects) (objects.foldl seenUpdate st))
    i hv hv k habs (hA1.trans hs1t) hne (hA2.trans hs1s)
  rw [heval]
  by_cases hk : MAX_ALLOWED_SKIP_OBJECT ≤ k + 1
  · rw [if_pos hk, if_pos hk]
    obtain ⟨hB1, hB2⟩ := sweepFold_lookup_ne objects l2 _ i hl2
    obtain ⟨hBn1, hBn2⟩ := sweepFold_keysNodup objects l2
      { l1.foldl (sweepStep objects) (objects.foldl seenUpdate st) with
        object_trackjectories :=
          mapErase (l1.foldl (sweepStep objects) (objects.foldl seenUpdate st)).object_trackjectories i,
        object_id_skip_count :=
          mapErase (l1.foldl (sweepStep objects) (objects.foldl seenUpdate st)).object_id_skip_count i }
      (keysNodup_mapErase _ _ hAn1) (keysNodup_mapErase _ _ hAn2)
    refine ⟨hBn1, hBn2, ?_, ?_⟩
    · exact hB1.trans (mapLookup_mapErase_self _ _ hAn1)
    · exact hB2.trans (mapLookup_mapErase_self _ _ hAn2)
  · rw [if_neg hk, if_neg hk]
    obtain ⟨hB1, hB2⟩ := sweepFold_lookup_ne objects l2 _ i hl2
    obtain ⟨hBn1, hBn2⟩ := sweepFold_keysNodup objects l2
      { l1.foldl (sweepStep objects) (objects.foldl seenUpdate st) with
        object_id_skip_count :=
          mapInsert (l1.foldl (sweepStep objects) (objects.foldl seenUpdate st)).object_id_skip_count i (k + 1) }
      hAn1 (keysNodup_mapInsert _ _ _ hAn2)
    refine ⟨hBn1, hBn2, ?_, ?_⟩
    · exact hB1.trans (hA1.trans hs1t)
    · exact hB2.trans (mapLookup_mapInsert_self _ _ _)

theorem runFrames_absent (i : ℤ) (hv : List (ℚ × ℚ))
    (frames : List (ℕ × List Object)) :
    ∀ (st : CipvState) (k : ℕ),
    keysNodup st.object_trackjectories → keysNodup st.object_id_skip_count →
    mapLookup st.object_trackjectories i = some hv → hv ≠ [] →
    mapLookup st.object_id_skip_count i = some k →
    (∀ f ∈ frames, f.1 ≠ 0 ∧ ∀ o ∈ f.2, o.track_id ≠ i) →
    k + frames.length < MAX_ALLOWED_SKIP_OBJECT →
    keysNodup (runFrames frames st).object_trackjectories ∧
    keysNodup (runFrames frames st).object_id_skip_count ∧
    mapLookup (runFrames frames st).object_trackjectories i = some hv ∧
    mapLookup (runFrames frames st).object_id_skip_count i = some (k + frames.length) := by
  induction frames with
  | nil =>
    intro st k h1 h2 h3 hne h5 _ _
    exact ⟨h1, h2, h3, by simpa using h5⟩
  | cons f t ih =>
    intro st k h1 h2 h3 hne h5 hf hbound
    have hfr := hf f (by simp)
    have hframe := collectDrops_absent_frame f.1 f.2 st i hv k hfr.1 h1 h2 h3 hne h5 hfr.2
    have hlen : (f :: t).length = t.length + 1 := by simp
    have hk : ¬ MAX_ALLOWED_SKIP_OBJECT ≤ k + 1 := by
      rw [hlen] at hbound
      omega
    rw [if_neg hk] at hframe
    obtain ⟨hn1, hn2, hl1, hl2⟩ := hframe
    have hrest := ih ((CollectDrops f.1 f.2 st).2) (k + 1) hn1 hn2 hl1 hne hl2
      (fun g hg => hf g (by simp [hg])) (by rw [hlen] at hbound; omega)
    have hstep : runFrames (f :: t) st = runFrames t ((CollectDrops f.1 f.2 st).2) := by
      rw [runFrames, List.foldl_cons]
      rfl
    rw [hstep, hlen]
    refine ⟨hrest.1, hrest.2.1, hrest.2.2.1, ?_⟩
    rw [hrest.2.2.2]
    congr 1
    omega

/-- Claim C7: a track id last seen in some frame (history non-empty, absence
counter zero) that is then absent from `MAX_ALLOWED_SKIP_OBJECT` consecutive
`CollectDrops` frames, each with a non-empty motion buffer, has both its
history and its counter erased; after only the first
`MAX_ALLOWED_SKIP_OBJECT - 1` of those frames its history is still present
(unchanged).  Well-formedness: `std::map` keys are distinct (`keysNodup`). -/
theorem CollectDrops_eviction (st : CipvState) (i : ℤ) (hv : List (ℚ × ℚ))
    (frames : List (ℕ × List Object))
    (hnt : keysNodup st.object_trackjectories)
    (hns : keysNodup st.object_id_skip_count)
    (ht : mapLookup st.object_trackjectories i = some hv) (hne : hv ≠ [])
    (hs : mapLookup st.object_id_skip_count i = some 0)
    (hf : ∀ f ∈ frames, f.1 ≠ 0 ∧ ∀ o ∈ f.2, o.track_id ≠ i)
    (hlen : frames.length = MAX_ALLOWED_SKIP_OBJECT) :
    mapLookup (runFrames (frames.take (MAX_ALLOWED_SKIP_OBJECT - 1)) st).object_trackjectories
        i = some hv ∧
    mapLookup (runFrames frames st).object_trackjectories i = none ∧
    mapLookup (runFrames frames st).object_id_skip_count i = none := by
  have htlen : (frames.take (MAX_ALLOWED_SKIP_OBJECT - 1)).length =
      MAX_ALLOWED_SKIP_OBJECT - 1 := by
    rw [List.length_take, hlen]
    omega
  have hrun9 := runFrames_absent i hv (frames.take (MAX_ALLOWED_SKIP_OBJECT - 1)) st 0
    hnt hns ht hne hs
    (fun f hfm => hf f (List.mem_of_mem_take hfm))
    (by rw [htlen]; decide)
  obtain ⟨hn1, hn2, h9t, h9s⟩ := hrun9
  refine ⟨h9t, ?_⟩
  have hdlen : (frames.drop (MAX_ALLOWED_SKIP_OBJECT - 1)).length = 1 := by
    rw [List.length_drop, hlen]
    decide
  obtain ⟨f, hfd⟩ : ∃ f, frames.drop (MAX_ALLOWED_SKIP_OBJECT - 1) = [f] := by
    cases hd : frames.drop (MAX_ALLOWED_SKIP_OBJECT - 1) with
    | nil => rw [hd] at hdlen; simp at hdlen
    | cons a t2 =>
      rw [hd] at hdlen
      simp only [List.length_cons] at hdlen
      have ht2 : t2.length = 0 := by omega
      exact ⟨a, by rw [List.length_eq_zero.mp ht2]⟩
  have hfmem : f ∈ frames := by
    have : f ∈ frames.drop (MAX_ALLOWED_SKIP_OBJECT - 1) := by rw [hfd]; simp
    exact List.mem_of_mem_drop this
  have hff := hf f hfmem
  have hrunfull : runFrames frames st =
      (CollectDrops f.1 f.2 (runFrames (frames.take (MAX_ALLOWED_SKIP_OBJECT - 1)) st)).2 := by
    conv_lhs => rw [← List.take_append_drop (MAX_ALLOWED_SKIP_OBJECT - 1) frames]
    rw [runFrames, List.foldl_append, hfd, List.foldl_cons, List.foldl_nil]
    rfl
  rw [hrunfull]
  have h9s' : mapLookup (runFrames (frames.take (MAX_ALLOWED_SKIP_OBJECT - 1)) st).object_id_skip_count
      i = some (MAX_ALLOWED_SKIP_OBJECT - 1) := by
    rw [h9s, htlen]
    rfl
  have hframe := collectDrops_absent_frame f.1 f.2
    (runFrames (frames.take (MAX_ALLOWED_SKIP_OBJECT - 1)) st) i hv
    (MAX_ALLOWED_SKIP_OBJECT - 1) hff.1 hn1 hn2 h9t hne h9s' hff.2
  rw [if_pos (by decide)] at hframe
  exact hframe.2.2

/-- Claim C7 (witness): track id 1 just seen (one history point, counter 0),
then absent from ten consecutive frames with a non-empty motion buffer. -/
theorem CollectDrops_eviction_witness :
    keysNodup s7.object_trackjectories ∧ keysNodup s7.object_id_skip_count ∧
    mapLookup s7.object_trackjectories 1 = some [(0, 0)] ∧
    ([((0 : ℚ), (0 : ℚ))] : List (ℚ × ℚ)) ≠ [] ∧
    mapLookup s7.object_id_skip_count 1 = some 0 ∧
    (∀ f ∈ frames7, f.1 ≠ 0 ∧ ∀ o ∈ f.2, o.track_id ≠ 1) ∧
    frames7.length = MAX_ALLOWED_SKIP_OBJECT ∧
    (mapLookup (runFrames (frames7.take (MAX_ALLOWED_SKIP_OBJECT - 1)) s7).object_trackjectories
        1 = some [(0, 0)] ∧
      mapLookup (runFrames frames7 s7).object_trackjectories 1 = none ∧
      mapLookup (runFrames frames7 s7).object_id_skip_count 1 = none) :=
  ⟨by with_unfolding_all decide, by with_unfolding_all decide, by with_unfolding_all decide,
   by with_unfolding_all decide, by with_unfolding_all decide, by with_unfolding_all decide,
   by with_unfolding_all decide,
   CollectDrops_eviction s7 1 [(0, 0)] frames7 (by with_unfolding_all decide)
     (by with_unfolding_all decide) (by with_unfolding_all decide)
     (by with_unfolding_all decide) (by with_unfolding_all decide)
     (by with_unfolding_all decide) (by with_unfolding_all decide)⟩

end CipvCamera
